import Mathlib

/-!
# Verification of the integer arithmetic expression evaluator

Shallow embedding of the interpreter in src/interpreter.py: a lexer
(characters to tokens), a recursive-descent parser (tokens to AST) and a
tree-walking evaluator (AST to integer), plus the surrounding
read-evaluate-print loop of main().

Modelling notes, keyed to the source:

* The Python lexer object carries fields pos, curr_char and curr_token.
  curr_char is always recomputed by advance() before it is read, so it is a
  function of (source, pos) and needs no separate state.  curr_token is
  *never* observable in get_next_token: the only read is the comparison
  "self.curr_token == TokenType.EOF" (line 97), which compares a Token
  object against a TokenType enum member and is therefore always False in
  Python; the effective end-of-input test is "self.pos >= len(self.source)".
  Hence get_next_token is a pure function from (source, scan position) to
  (next scan position, token).  We index by the position of the next
  character to examine (Python pos + 1).

* take_full_integer (lines 86-93) consumes the maximal run of digits
  starting at the current character and backs the cursor up one with
  advance(reverse=True); the accumulated digit string is converted by
  Python int(), i.e. base-10 left fold.  The reverse-advance also stores a
  Token into curr_char when pos reaches 0 (line 61, a type slip in the
  source), but that value is overwritten by the next advance() before any
  read, so it is unobservable and not modelled.

* Python str.isdigit / str.isspace are modelled by Char.isDigit /
  Char.isWhitespace (the ASCII fragment, which is all the spec and claims
  exercise).

* General recursion (the whitespace skip in get_next_token and the mutual
  recursive descent of the parser) is embedded with an explicit fuel
  parameter; the wrappers supply fuel that strictly exceeds every possible
  recursion depth for the given input, so the out-of-fuel branches are
  unreachable and exist only to make the functions total.
-/

/-- TokenType enumeration of src/interpreter.py lines 11-21. -/
inductive TokenType
  | START
  | INTEGER
  | PLUS
  | MINUS
  | MULT
  | DIV
  | SPACE
  | LPAREN
  | RPAREN
  | EOF
deriving DecidableEq

/-- The value slot of a Token: Python stores None, an int, or the literal
operator character. -/
inductive TokenValue
  | none
  | int (n : Int)
  | char (c : Char)
deriving DecidableEq

/-- Token (src/interpreter.py lines 24-30): a kind plus an optional value. -/
structure Token where
  type : TokenType
  value : TokenValue
deriving DecidableEq

/-- The operations dict of Lexer.__init__ (lines 39-44), as an optional
map from the current character to the operator token type. -/
def operations (c : Char) : Option TokenType :=
  if c = '+' then some .PLUS
  else if c = '-' then some .MINUS
  else if c = '*' then some .MULT
  else if c = '/' then some .DIV
  else none

/-- Python int() applied to a nonempty string of decimal digits
(take_full_integer line 93): base-10 left fold of the digit values. -/
def strToNat (ds : List Char) : Nat :=
  ds.foldl (fun a c => a * 10 + (c.toNat - 48)) 0

/-- Lexer.get_next_token (lines 95-111), as a pure function.
The argument i is the index of the next character to examine
(Python pos + 1); the result is (next scan index, token).  The branch
order follows the source: end of input, digit, operator, lparen, rparen,
whitespace (skip and recurse), anything else end-of-input.
The digit branch is take_full_integer (lines 86-93): the maximal digit
run starting at i is consumed and the cursor is left just after it.
Fuel bounds the whitespace recursion only; the wrapper nextTok supplies
source length + 1, which is more than any possible whitespace run. -/
def getNextToken : Nat → List Char → Nat → Nat × Token
  | 0, _, i => (i + 1, ⟨.EOF, .none⟩)
  | fuel+1, s, i =>
    if h : s.length ≤ i then (i + 1, ⟨.EOF, .none⟩)
    else
      let c := s.get ⟨i, Nat.lt_of_not_le h⟩
      if c.isDigit then
        let ds := (s.drop i).takeWhile Char.isDigit
        (i + ds.length, ⟨.INTEGER, .int (strToNat ds)⟩)
      else
        match operations c with
        | some t => (i + 1, ⟨t, .char c⟩)
        | Option.none =>
          if c = '(' then (i + 1, ⟨.LPAREN, .char '('⟩)
          else if c = ')' then (i + 1, ⟨.RPAREN, .char ')'⟩)
          else if c.isWhitespace then getNextToken fuel s (i + 1)
          else (i + 1, ⟨.EOF, .none⟩)

/-- One call of Lexer.get_next_token on source s with next scan index i. -/
def nextTok (s : List Char) (i : Nat) : Nat × Token :=
  getNextToken (s.length + 1) s i

/-- The AST node classes of src/interpreter.py lines 115-139: Num, UnaryOp
and BinOp, each carrying the Token it was built from. -/
inductive Ast
  | num (token : Token)
  | unaryOp (token : Token) (expr : Ast)
  | binOp (token : Token) (left : Ast) (right : Ast)
deriving DecidableEq

/-- The failures the pipeline can raise.  In Python every one of them is an
ordinary exception: expected/invalidFactor come from Parser.raise_exception
(lines 146-147, 156, 171), divisionByZero is the ZeroDivisionError of the
// operator (line 210), keyError is the KeyError of the operations dict
lookup (line 214) for a BinOp token outside the four operator kinds, and
badNum marks a Num token whose value slot is not an integer (the parser
never builds either of the last two).  noFuel is the out-of-fuel artifact
of the embedding, unreachable under the fuel supplied by parseL. -/
inductive Err
  | expected (or_ : List TokenType) (got : TokenType)
  | invalidFactor
  | divisionByZero
  | keyError
  | badNum
  | noFuel
deriving DecidableEq

/-- Parser state: the lexer scan position plus the single buffered
lookahead token (Parser.curr_token, line 144). -/
structure PState where
  i : Nat
  tok : Token
deriving DecidableEq

/-- Parser.eat (lines 149-156): if the lookahead kind is one of the
expected kinds, pull the next token from the lexer; otherwise fail naming
the expected kinds and the kind found. -/
def eat (src : List Char) (st : PState) (or_ : List TokenType) :
    Except Err PState :=
  if st.tok.type ∈ or_ then
    let n := nextTok src st.i
    .ok ⟨n.1, n.2⟩
  else .error (.expected or_ st.tok.type)

mutual

/-- Parser.factor (lines 158-171): an INTEGER token becomes Num, LPAREN
opens a parenthesized expr closed by RPAREN, PLUS/MINUS builds a UnaryOp
around a recursive factor, anything else raises Invalid Factor. -/
def factorF (src : List Char) : Nat → PState → Except Err (Ast × PState)
  | 0, _ => .error .noFuel
  | fuel+1, st =>
    let token := st.tok
    if token.type = .INTEGER then do
      let st ← eat src st [.INTEGER]
      .ok (.num token, st)
    else if token.type = .LPAREN then do
      let st ← eat src st [.LPAREN]
      let (node, st) ← exprF src fuel st
      let st ← eat src st [.RPAREN]
      .ok (node, st)
    else if token.type = .PLUS ∨ token.type = .MINUS then do
      let st ← eat src st [.PLUS, .MINUS]
      let (node, st) ← factorF src fuel st
      .ok (.unaryOp token node, st)
    else .error .invalidFactor

/-- Parser.term (lines 173-179): a factor followed by the MULT/DIV fold
loop. -/
def termF (src : List Char) : Nat → PState → Except Err (Ast × PState)
  | 0, _ => .error .noFuel
  | fuel+1, st => do
    let (f, st) ← factorF src fuel st
    termLoopF src fuel f st

/-- The while-loop of Parser.term (lines 175-178): while the lookahead is
MULT or DIV, eat it, parse the next factor and fold into a left-nested
BinOp. -/
def termLoopF (src : List Char) : Nat → Ast → PState → Except Err (Ast × PState)
  | 0, _, _ => .error .noFuel
  | fuel+1, acc, st =>
    if st.tok.type = .MULT ∨ st.tok.type = .DIV then do
      let token := st.tok
      let st ← eat src st [.MULT, .DIV]
      let (f, st) ← factorF src fuel st
      termLoopF src fuel (.binOp token acc f) st
    else .ok (acc, st)

/-- Parser.expr (lines 181-187): a term followed by the PLUS/MINUS fold
loop. -/
def exprF (src : List Char) : Nat → PState → Except Err (Ast × PState)
  | 0, _ => .error .noFuel
  | fuel+1, st => do
    let (t, st) ← termF src fuel st
    exprLoopF src fuel t st

/-- The while-loop of Parser.expr (lines 183-186): while the lookahead is
PLUS or MINUS, eat it, parse the next term and fold into a left-nested
BinOp. -/
def exprLoopF (src : List Char) : Nat → Ast → PState → Except Err (Ast × PState)
  | 0, _, _ => .error .noFuel
  | fuel+1, acc, st =>
    if st.tok.type = .PLUS ∨ st.tok.type = .MINUS then do
      let op := st.tok
      let st ← eat src st [.PLUS, .MINUS]
      let (t, st) ← termF src fuel st
      exprLoopF src fuel (.binOp op acc t) st
    else .ok (acc, st)

end

/-- Parser.parse (lines 189-190) on a character list: initialize the
lookahead from the first lexer call (Parser.__init__, line 144), run expr,
and return its node.  parse returns whatever expr built; it does not
require the lookahead to be EOF afterwards, so trailing tokens are
ignored.  Fuel 4 * length + 10 strictly exceeds the recursion depth on any
input: every recursive call either consumes one token (of which there are
at most length + 1) or moves down the expr/term/factor chain, at most
three steps between consumptions. -/
def parseL (src : List Char) : Except Err Ast := do
  let n := nextTok src 0
  let (ast, _) ← exprF src (4 * src.length + 10) ⟨n.1, n.2⟩
  .ok ast

/-- Parser.parse on an input line. -/
def parse (s : String) : Except Err Ast := parseL s.toList

/-- The operations dict of Interpreter.__init__ (lines 206-211), keyed by
token type.  DIV is Python floor division //, whose application raises
ZeroDivisionError when the right value is zero; a key outside the four
operator kinds is a KeyError at lookup time. -/
def interpOperations (t : TokenType) : Option (Int → Int → Except Err Int) :=
  match t with
  | .PLUS => some fun x y => .ok (x + y)
  | .MINUS => some fun x y => .ok (x - y)
  | .MULT => some fun x y => .ok (x * y)
  | .DIV => some fun x y =>
      if y = 0 then .error .divisionByZero else .ok (Int.fdiv x y)
  | _ => none

/-- Interpreter.visit (lines 194-224), dispatching on the node class.
visit_Num returns the token value (an integer for every parser-built
node); visit_UnaryOp negates under a MINUS token and is the identity
otherwise (the Python else branch applies unary plus); visit_BinOp looks
the operator up in the operations dict first (KeyError before the
children are visited), then evaluates left before right and applies. -/
def evalAst : Ast → Except Err Int
  | .num t =>
    match t.value with
    | .int n => .ok n
    | _ => .error .badNum
  | .unaryOp t e => do
    let v ← evalAst e
    if t.type = .MINUS then .ok (-v) else .ok v
  | .binOp t l r =>
    match interpOperations t.type with
    | Option.none => .error .keyError
    | some f => do
      let a ← evalAst l
      let b ← evalAst r
      f a b

/-- The core pipeline on one input line: lex and parse, then evaluate the
AST.  This is the evaluate function of the specification. -/
def evaluate (s : String) : Except Err Int := do
  evalAst (← parse s)

/-- The observable outcome of one iteration of the while-loop in main
(lines 229-245). -/
inductive LoopStep
  | quit
  | output (line : String)
  | fatal
deriving DecidableEq

/-- One iteration of main (lines 229-245) on the line read from input.
The quit sentinel ":q" prints and breaks; otherwise parse() runs inside
try/except and any parse failure prints "Invalid Input" and continues.
When parse succeeds, line 244 executes "interpreter = Interpreter()" —
with no ast argument, although Interpreter.__init__ (line 204) requires
one — outside the try block, so it raises an uncaught TypeError that
kills the process: the result line "print(interpreter.execute())" is
never reached, and neither is any evaluation (so a ZeroDivisionError
could never surface from this loop either). -/
def mainStep (line : String) : LoopStep :=
  if line = ":q" then .quit
  else
    match parse line with
    | .error _ => .output "Invalid Input"
    | .ok _ => .fatal

/-- Classifier for the inputs of claim C10: the scan finds no token before
end of input.  True exactly when the string is empty, consists only of
whitespace, or its first non-whitespace character is recognized neither as
a digit, an operator, nor a parenthesis. -/
def yieldsNoToken : List Char → Bool
  | [] => true
  | c :: rest =>
    if c.isWhitespace then yieldsNoToken rest
    else !(c.isDigit || (operations c).isSome || c = '(' || c = ')')

/-- The base-10 digit characters of n, most significant first (empty for
n = 0). -/
def decimalDigitsChars (n : Nat) : List Char :=
  (Nat.digits 10 n).reverse.map fun d => Char.ofNat (48 + d)

/-- The standard base-10 literal for a non-negative integer n, with no
other characters. -/
def decimalRepr (n : Nat) : String :=
  if n = 0 then "0" else String.mk (decimalDigitsChars n)

example : decimalRepr 042 = "42" := by
  norm_num [decimalRepr, decimalDigitsChars, Nat.digits_def']
example : decimalRepr 0 = "0" := rfl

example : nextTok "2+3".toList 0 = (1, ⟨.INTEGER, .int 2⟩) := rfl
example : nextTok "2+3".toList 1 = (2, ⟨.PLUS, .char '+'⟩) := rfl
example : nextTok "  25".toList 0 = (4, ⟨.INTEGER, .int 25⟩) := rfl
example : nextTok "a5".toList 0 = (1, ⟨.EOF, .none⟩) := rfl
example : nextTok "a5".toList 1 = (2, ⟨.INTEGER, .int 5⟩) := rfl
example : nextTok "2".toList 1 = (2, ⟨.EOF, .none⟩) := rfl

example : evaluate "2" = .ok 2 := rfl
example : evaluate "2 + 3 * 4" = .ok 14 := rfl
example : evaluate "8 - 3 - 2" = .ok 3 := rfl
example : evaluate "(2 + 3) * 4" = .ok 20 := rfl
example : evaluate "2 2" = .ok 2 := rfl
example : evaluate "--5" = .ok 5 := rfl
example : evaluate "-(-5)" = .ok 5 := rfl
example : evaluate "+-3" = .ok (-3) := rfl
example : evaluate "7 / 2" = .ok 3 := rfl
example : evaluate "-7 / 2" = .ok (-4) := rfl
example : evaluate "5 / 0" = .error .divisionByZero := rfl
example : evaluate "2 +" = .error .invalidFactor := rfl
example : evaluate "(2 + 3" = .error (.expected [.RPAREN] .EOF) := rfl
example : evaluate ")" = .error .invalidFactor := rfl
example : evaluate "" = .error .invalidFactor := rfl
example : mainStep "2" = .fatal := rfl
example : mainStep ":q" = .quit := rfl

/-! ## Helper lemmas -/

@[simp] lemma except_bind_ok {ε α β : Type} (a : α) (f : α → Except ε β) :
    (Except.ok a : Except ε α) >>= f = f a := rfl

@[simp] lemma except_bind_err {ε α β : Type} (e : ε) (f : α → Except ε β) :
    (Except.error e : Except ε α) >>= f = Except.error e := rfl

lemma fdiv_neg_neg : ∀ (a b : Int), b ≠ 0 → Int.fdiv (-a) (-b) = Int.fdiv a b
  | .ofNat 0, _, _ => by simp
  | .ofNat (_+1), .ofNat 0, hb => absurd rfl hb
  | .ofNat (_+1), .ofNat (_+1), _ => rfl
  | .ofNat (_+1), .negSucc _, _ => rfl
  | .negSucc _, .ofNat 0, hb => absurd rfl hb
  | .negSucc _, .ofNat (_+1), _ => rfl
  | .negSucc _, .negSucc _, _ => rfl

lemma fdiv_eq_floor_of_pos (a b : Int) (hb : 0 < b) :
    Int.fdiv a b = ⌊(a : ℚ) / (b : ℚ)⌋ := by
  obtain ⟨d, rfl⟩ : ∃ d : Nat, b = (d : Int) :=
    ⟨b.toNat, (Int.toNat_of_nonneg hb.le).symm⟩
  rw [Int.fdiv_eq_ediv a hb.le]
  have h := Rat.floor_intCast_div_natCast a d
  rw [show (((d : Int) : ℚ)) = ((d : Nat) : ℚ) by push_cast; ring]
  exact h.symm

/-- Int.fdiv is exactly division rounded toward negative infinity. -/
lemma fdiv_eq_floor (a b : Int) (hb : b ≠ 0) :
    Int.fdiv a b = ⌊(a : ℚ) / (b : ℚ)⌋ := by
  rcases lt_trichotomy b 0 with hneg | h0 | hpos
  · have h1 : Int.fdiv a b = Int.fdiv (-a) (-b) := (fdiv_neg_neg a b hb).symm
    rw [h1, fdiv_eq_floor_of_pos (-a) (-b) (by omega)]
    congr 1
    push_cast
    rw [neg_div_neg_eq]
  · exact absurd h0 hb
  · exact fdiv_eq_floor_of_pos a b hpos

/-- Once the scan position is at or past the end of the string,
get_next_token returns EndOfInput and the position stays past the end. -/
lemma nextTok_atEnd (s : List Char) (i : Nat) (h : s.length ≤ i) :
    nextTok s i = (i + 1, ⟨.EOF, .none⟩) := by
  simp [nextTok, getNextToken, h]

/-- A whitespace character is not a digit, not an operator and not a
parenthesis. -/
lemma ws_char_facts (c : Char) (h : c.isWhitespace = true) :
    c.isDigit = false ∧ operations c = Option.none ∧ c ≠ '(' ∧ c ≠ ')' := by
  simp only [Char.isWhitespace, Bool.or_eq_true, decide_eq_true_eq] at h
  rcases h with ((rfl | rfl) | rfl) | rfl <;>
    exact ⟨by decide, by decide, by decide, by decide⟩

/-- If the rest of the input from position i yields no token, the lexer
call from i returns EndOfInput. -/
lemma getNextToken_noTok :
    ∀ (fuel : Nat) (s : List Char) (i : Nat), s.length - i < fuel →
      yieldsNoToken (s.drop i) = true →
      (getNextToken fuel s i).2 = ⟨.EOF, .none⟩ := by
  intro fuel
  induction fuel with
  | zero => intro s i h _; exact absurd h (Nat.not_lt_zero _)
  | succ f ih =>
    intro s i hlt hnt
    by_cases hle : s.length ≤ i
    · simp [getNextToken, hle]
    · have hi : i < s.length := Nat.lt_of_not_le hle
      rw [List.drop_eq_getElem_cons hi] at hnt
      simp only [yieldsNoToken] at hnt
      by_cases hws : s[i].isWhitespace = true
      · rw [if_pos hws] at hnt
        obtain ⟨hd, hop, hlp, hrp⟩ := ws_char_facts _ hws
        simp only [getNextToken, dif_neg hle, List.get_eq_getElem]
        simp [hd, hop, hlp, hrp, hws]
        exact ih s (i + 1) (by omega) hnt
      · rw [if_neg hws] at hnt
        simp only [Bool.not_eq_true', Bool.or_eq_false_iff,
          decide_eq_false_iff_not] at hnt
        obtain ⟨⟨⟨hd, hops⟩, hlp⟩, hrp⟩ := hnt
        have hop : operations s[i] = Option.none := by
          cases hq : operations s[i] with
          | none => rfl
          | some t => rw [hq] at hops; simp at hops
        simp only [getNextToken, dif_neg hle, List.get_eq_getElem]
        simp [hd, hop, hlp, hrp, hws]

/-- When the parser's lookahead is EndOfInput, expr fails through factor
with the Invalid Factor error (fuel at least 3 suffices: expr, term and
factor each consume one unit before factor rejects the token). -/
lemma exprF_eofTok (src : List Char) (f : Nat) (st : PState)
    (h : st.tok.type = .EOF) :
    exprF src (f + 1 + 1 + 1) st = .error .invalidFactor := by
  simp [exprF, termF, factorF, h]

/-- When the lookahead is a single Integer token followed by EndOfInput,
expr returns the Num node for it and stops. -/
lemma exprF_intLit (src : List Char) (f : Nat) (st : PState)
    (v : TokenValue) (htok : st.tok = ⟨.INTEGER, v⟩)
    (heof : (nextTok src st.i).2.type = .EOF) :
    exprF src (f + 1 + 1 + 1) st =
      .ok (.num st.tok, ⟨(nextTok src st.i).1, (nextTok src st.i).2⟩) := by
  obtain ⟨i, tok⟩ := st
  simp only at htok heof
  subst htok
  simp [exprF, termF, factorF, termLoopF, exprLoopF, eat, heof]

/-- The lexer on a nonempty all-digit input consumes the whole input as
one maximal digit run and returns its base-10 value as an Integer
token. -/
lemma nextTok_digits (ds : List Char) (hne : ds ≠ [])
    (hd : ∀ c ∈ ds, c.isDigit = true) :
    nextTok ds 0 = (ds.length, ⟨.INTEGER, .int (strToNat ds)⟩) := by
  have hlen : 0 < ds.length := List.length_pos.mpr hne
  have h0 : (ds.get ⟨0, hlen⟩).isDigit = true := hd _ (List.get_mem ds 0 hlen)
  rw [List.get_eq_getElem] at h0
  simp only [nextTok, getNextToken, dif_neg (Nat.not_le.mpr hlen),
    List.get_eq_getElem, List.drop_zero]
  simp [h0, List.takeWhile_eq_self_iff.mpr hd]

/-- A single Integer token line parses to the corresponding Num node. -/
lemma parseL_digits (ds : List Char) (hne : ds ≠ [])
    (hd : ∀ c ∈ ds, c.isDigit = true) :
    parseL ds = .ok (.num ⟨.INTEGER, .int (strToNat ds)⟩) := by
  have h1 := nextTok_digits ds hne hd
  have heof := nextTok_atEnd ds ds.length (le_refl _)
  simp only [parseL, h1]
  have hfuel : 4 * ds.length + 10 = 4 * ds.length + 7 + 1 + 1 + 1 := by omega
  rw [hfuel,
    exprF_intLit ds (4 * ds.length + 7)
      ⟨ds.length, ⟨.INTEGER, .int (strToNat ds)⟩⟩
      (.int (strToNat ds)) rfl (by rw [heof])]
  rfl

lemma char_digit_of_lt (d : Nat) (h : d < 10) :
    (Char.ofNat (48 + d)).toNat - 48 = d ∧
      (Char.ofNat (48 + d)).isDigit = true := by
  interval_cases d <;> exact ⟨by decide, by decide⟩

lemma foldl_rev_ofDigits (L : List Nat) :
    ∀ a : Nat, List.foldl (fun acc d => acc * 10 + d) a L.reverse =
      a * 10 ^ L.length + Nat.ofDigits 10 L := by
  induction L with
  | nil => intro a; simp [Nat.ofDigits_nil]
  | cons d T ih =>
    intro a
    simp only [List.reverse_cons, List.foldl_append, List.foldl_cons,
      List.foldl_nil, ih, List.length_cons, Nat.ofDigits_cons, Nat.cast_id]
    ring

/-- Python int() of the decimal digit characters of n gives back n. -/
lemma strToNat_decimalDigitsChars (n : Nat) :
    strToNat (decimalDigitsChars n) = n := by
  unfold strToNat decimalDigitsChars
  rw [List.foldl_map]
  have hcong : List.foldl
      (fun acc d => acc * 10 + ((Char.ofNat (48 + d)).toNat - 48)) 0
      (Nat.digits 10 n).reverse
      = List.foldl (fun acc d => acc * 10 + d) 0 (Nat.digits 10 n).reverse := by
    apply List.foldl_ext
    intro a d hdm
    rw [List.mem_reverse] at hdm
    rw [(char_digit_of_lt d (Nat.digits_lt_base (by norm_num) hdm)).1]
  rw [hcong, foldl_rev_ofDigits, Nat.ofDigits_digits]
  simp

lemma decimalDigitsChars_ne_nil (n : Nat) (hn : n ≠ 0) :
    decimalDigitsChars n ≠ [] := by
  unfold decimalDigitsChars
  simp [Nat.digits_ne_nil_iff_ne_zero, hn]

lemma decimalDigitsChars_all_digits (n : Nat) :
    ∀ c ∈ decimalDigitsChars n, c.isDigit = true := by
  intro c hc
  unfold decimalDigitsChars at hc
  simp only [List.mem_map, List.mem_reverse] at hc
  obtain ⟨d, hdm, rfl⟩ := hc
  exact (char_digit_of_lt d (Nat.digits_lt_base (by norm_num) hdm)).2

/-! ## Claims -/

/-- C1 (counterexample): the claim states that evaluating "2 2" fails with
a SyntaxError because parse() consumes the full token stream; in fact the
core evaluates "2 2" to the value 2 (parse stops after the first complete
expression and ignores the trailing token). -/
theorem C1_refuted : evaluate "2 2" = .ok 2 := rfl

/-- C1 (amended): the malformed inputs "2 +", "(2 + 3" and ")" each signal
a syntax error and never a value, but parse() does not consume the full
token stream: tokens after a complete expression are silently ignored, so
evaluate "2 2" succeeds with 2. -/
theorem C1_amended_holds :
    evaluate "2 +" = .error .invalidFactor ∧
    evaluate "(2 + 3" = .error (.expected [.RPAREN] .EOF) ∧
    evaluate ")" = .error .invalidFactor ∧
    evaluate "2 2" = .ok 2 :=
  ⟨rfl, rfl, rfl, rfl⟩

/-- C3 (code bug): the claim says the read-evaluate-print loop catches
every core failure, prints "Invalid Input" and continues, and prints the
resulting integer on success, no core failure being fatal.  The code does
catch parse failures and print "Invalid Input", and quits on the ":q"
sentinel, but on every line whose parse succeeds (such as "2") main
constructs Interpreter() without the required ast argument outside the
try/except, so the process dies with an uncaught TypeError instead of
printing the value; an evaluation failure such as division by zero in
"5 / 0" could likewise never be caught, since evaluation sits outside the
try block (it is never even reached). -/
theorem C3_code_behavior :
    parse "2" = .ok (.num ⟨.INTEGER, .int 2⟩) ∧
    mainStep "2" = .fatal ∧
    mainStep "5 / 0" = .fatal ∧
    mainStep "2 +" = .output "Invalid Input" ∧
    mainStep ":q" = .quit :=
  ⟨rfl, rfl, rfl, rfl, rfl⟩

/-- C4: the evaluator respects precedence (MULT/DIV bind tighter than
PLUS/MINUS, parentheses reset precedence) and left-associativity of
equal-precedence operators: "8 - 3 - 2" parses as (8 - 3) - 2 and comes
out 3, "2 + 3 * 4" is 14, "(2 + 3) * 4" is 20. -/
theorem C4_holds :
    evaluate "8 - 3 - 2" = .ok 3 ∧
    evaluate "2 + 3 * 4" = .ok 14 ∧
    evaluate "(2 + 3) * 4" = .ok 20 ∧
    parse "8 - 3 - 2" = .ok
      (.binOp ⟨.MINUS, .char '-'⟩
        (.binOp ⟨.MINUS, .char '-'⟩
          (.num ⟨.INTEGER, .int 8⟩) (.num ⟨.INTEGER, .int 3⟩))
        (.num ⟨.INTEGER, .int 2⟩)) ∧
    parse "2 + 3 * 4" = .ok
      (.binOp ⟨.PLUS, .char '+'⟩
        (.num ⟨.INTEGER, .int 2⟩)
        (.binOp ⟨.MULT, .char '*'⟩
          (.num ⟨.INTEGER, .int 3⟩) (.num ⟨.INTEGER, .int 4⟩))) :=
  ⟨rfl, rfl, rfl, rfl, rfl⟩

/-- C5: binary division is floor division: whenever the left operand of a
DIV node evaluates to a and the right to b with b nonzero, the node
evaluates to Int.fdiv a b, which is the quotient rounded toward negative
infinity; in particular "7 / 2" gives 3 and "-7 / 2" gives -4. -/
theorem C5_holds :
    (∀ (t : Token) (l r : Ast) (a b : Int), t.type = .DIV →
      evalAst l = .ok a → evalAst r = .ok b → b ≠ 0 →
      evalAst (.binOp t l r) = .ok (Int.fdiv a b)) ∧
    (∀ a b : Int, b ≠ 0 → Int.fdiv a b = ⌊(a : ℚ) / (b : ℚ)⌋) ∧
    evaluate "7 / 2" = .ok 3 ∧
    evaluate "-7 / 2" = .ok (-4) := by
  refine ⟨?_, fdiv_eq_floor, rfl, rfl⟩
  intro t l r a b ht hl hr hb
  simp [evalAst, interpOperations, ht, hl, hr, hb]

/-- C5 witness: the division rule applied to the node for 7 / 2. -/
theorem C5_witness :
    ((⟨.DIV, .char '/'⟩ : Token).type = .DIV ∧
      evalAst (.num ⟨.INTEGER, .int 7⟩) = .ok 7 ∧
      evalAst (.num ⟨.INTEGER, .int 2⟩) = .ok 2 ∧
      (2 : Int) ≠ 0) ∧
    evalAst (.binOp ⟨.DIV, .char '/'⟩
      (.num ⟨.INTEGER, .int 7⟩) (.num ⟨.INTEGER, .int 2⟩)) = .ok (Int.fdiv 7 2) :=
  ⟨⟨rfl, rfl, rfl, by decide⟩,
    C5_holds.1 ⟨.DIV, .char '/'⟩ _ _ 7 2 rfl rfl rfl (by decide)⟩

/-- C6: a DIV node whose right operand evaluates to zero never evaluates
to a value, and (as soon as the left operand evaluates at all) it signals
divisionByZero; in particular "5 / 0" signals divisionByZero. -/
theorem C6_holds :
    (∀ (t : Token) (l r : Ast), t.type = .DIV → evalAst r = .ok 0 →
      (∀ v : Int, evalAst (.binOp t l r) ≠ .ok v) ∧
      (∀ a : Int, evalAst l = .ok a →
        evalAst (.binOp t l r) = .error .divisionByZero)) ∧
    evaluate "5 / 0" = .error .divisionByZero := by
  refine ⟨?_, rfl⟩
  intro t l r ht hr
  constructor
  · intro v
    cases hl : evalAst l with
    | error e => simp [evalAst, interpOperations, ht, hl]
    | ok a => simp [evalAst, interpOperations, ht, hl, hr]
  · intro a hl
    simp [evalAst, interpOperations, ht, hl, hr]

/-- C6 witness: the zero-divisor rule applied to the node for 5 / 0. -/
theorem C6_witness :
    ((⟨.DIV, .char '/'⟩ : Token).type = .DIV ∧
      evalAst (.num ⟨.INTEGER, .int 0⟩) = .ok 0 ∧
      evalAst (.num ⟨.INTEGER, .int 5⟩) = .ok 5) ∧
    evalAst (.binOp ⟨.DIV, .char '/'⟩
      (.num ⟨.INTEGER, .int 5⟩) (.num ⟨.INTEGER, .int 0⟩)) =
        .error .divisionByZero :=
  ⟨⟨rfl, rfl, rfl⟩,
    (C6_holds.1 ⟨.DIV, .char '/'⟩ (.num ⟨.INTEGER, .int 5⟩)
      (.num ⟨.INTEGER, .int 0⟩) rfl rfl).2 5 rfl⟩

/-- C7: a UnaryOp with a MINUS token evaluates to the negation of its
operand's value (and propagates its failure), a UnaryOp with a PLUS token
evaluates to its operand unchanged, for every operand AST; nesting is
arbitrary: "--5" and "-(-5)" give 5 and "+-3" gives -3. -/
theorem C7_holds :
    (∀ (t : Token) (n : Ast), t.type = .MINUS →
      evalAst (.unaryOp t n) = (evalAst n).map fun v => -v) ∧
    (∀ (t : Token) (n : Ast), t.type = .PLUS →
      evalAst (.unaryOp t n) = evalAst n) ∧
    evaluate "--5" = .ok 5 ∧
    evaluate "-(-5)" = .ok 5 ∧
    evaluate "+-3" = .ok (-3) := by
  refine ⟨?_, ?_, rfl, rfl, rfl⟩
  · intro t n ht
    cases h : evalAst n <;> simp [evalAst, ht, h, Except.map]
  · intro t n ht
    cases h : evalAst n <;> simp [evalAst, ht, h]

/-- C7 witness: the negation rule applied to the literal 5. -/
theorem C7_witness :
    ((⟨.MINUS, .char '-'⟩ : Token).type = .MINUS) ∧
    evalAst (.unaryOp ⟨.MINUS, .char '-'⟩ (.num ⟨.INTEGER, .int 5⟩)) =
      (evalAst (.num ⟨.INTEGER, .int 5⟩)).map fun v => -v :=
  ⟨rfl, C7_holds.1 ⟨.MINUS, .char '-'⟩ (.num ⟨.INTEGER, .int 5⟩) rfl⟩

/-- C2 (counterexample): on input "a5" the first lexer call returns
EndOfInput (for the unrecognized character) and the very next call
returns the Integer token 5, so once-EndOfInput-always-EndOfInput fails
for the stream as claimed. -/
theorem C2_refuted :
    (nextTok "a5".toList 0).2 = ⟨.EOF, .none⟩ ∧
    (nextTok "a5".toList (nextTok "a5".toList 0).1).2 = ⟨.INTEGER, .int 5⟩ :=
  ⟨rfl, rfl⟩

/-- C2 (amended): idempotence does hold for the EndOfInput produced at
the end of the string: whenever the scan position has reached or passed
the end of the input, get_next_token returns EndOfInput and leaves the
position past the end again, so every subsequent call also returns
EndOfInput.  An EndOfInput emitted for an unrecognized character
mid-string is not sticky (see the counterexample). -/
theorem C2_amended_holds (s : List Char) (i : Nat) (h : s.length ≤ i) :
    nextTok s i = (i + 1, ⟨.EOF, .none⟩) ∧ s.length ≤ i + 1 :=
  ⟨nextTok_atEnd s i h, by omega⟩

/-- C2 witness: the end-of-string rule applied past the end of "ab". -/
theorem C2_witness :
    "ab".toList.length ≤ 2 ∧
    (nextTok "ab".toList 2 = (3, ⟨.EOF, .none⟩) ∧ "ab".toList.length ≤ 3) :=
  ⟨by decide, C2_amended_holds "ab".toList 2 (by decide)⟩

/-- C8: when the current character is not a digit, not one of the four
operator characters, not a parenthesis and not whitespace, get_next_token
emits an EndOfInput token instead of raising a lexical error. -/
theorem C8_holds (s : List Char) (i : Nat) (h : i < s.length)
    (hd : (s.get ⟨i, h⟩).isDigit = false)
    (hop : operations (s.get ⟨i, h⟩) = Option.none)
    (hlp : s.get ⟨i, h⟩ ≠ '(') (hrp : s.get ⟨i, h⟩ ≠ ')')
    (hws : (s.get ⟨i, h⟩).isWhitespace = false) :
    nextTok s i = (i + 1, ⟨.EOF, .none⟩) := by
  rw [List.get_eq_getElem] at hd hop hlp hrp hws
  simp only [nextTok, getNextToken, dif_neg (Nat.not_le.mpr h),
    List.get_eq_getElem]
  simp [hd, hop, hlp, hrp, hws]

/-- C8 witness: the rule applied to the single unrecognized character of
the input "a". -/
theorem C8_witness :
    ((0 : Nat) < (['a'] : List Char).length ∧
      ((['a'] : List Char).get ⟨0, by decide⟩).isDigit = false ∧
      operations ((['a'] : List Char).get ⟨0, by decide⟩) = Option.none ∧
      (['a'] : List Char).get ⟨0, by decide⟩ ≠ '(' ∧
      (['a'] : List Char).get ⟨0, by decide⟩ ≠ ')' ∧
      ((['a'] : List Char).get ⟨0, by decide⟩).isWhitespace = false) ∧
    nextTok ['a'] 0 = (1, ⟨.EOF, .none⟩) :=
  ⟨⟨by decide, by decide, by decide, by decide, by decide, by decide⟩,
    C8_holds ['a'] 0 (by decide) (by decide) (by decide) (by decide)
      (by decide) (by decide)⟩

/-- C9: for every non-negative integer n, evaluating its base-10 literal
(with no other characters) yields n; and on every nonempty all-digit
input the lexer consumes the maximal contiguous digit run and parses it
as a base-10 non-negative integer token. -/
theorem C9_holds :
    (∀ n : Nat, evaluate (decimalRepr n) = .ok (n : Int)) ∧
    (∀ ds : List Char, ds ≠ [] → (∀ c ∈ ds, c.isDigit = true) →
      nextTok ds 0 = (ds.length, ⟨.INTEGER, .int (strToNat ds)⟩)) := by
  refine ⟨?_, nextTok_digits⟩
  intro n
  by_cases hn : n = 0
  · subst hn; rfl
  · have hrepr : decimalRepr n = String.mk (decimalDigitsChars n) := if_neg hn
    have hparse : parse (String.mk (decimalDigitsChars n))
        = .ok (.num ⟨.INTEGER, .int (strToNat (decimalDigitsChars n))⟩) := by
      unfold parse
      exact parseL_digits _ (decimalDigitsChars_ne_nil n hn)
        (decimalDigitsChars_all_digits n)
    rw [hrepr]
    unfold evaluate
    rw [hparse]
    simp [evalAst, strToNat_decimalDigitsChars n]

/-- C9 witness: the all-digit rule applied to the two-digit input 42. -/
theorem C9_witness :
    ((['4', '2'] : List Char) ≠ [] ∧
      ∀ c ∈ (['4', '2'] : List Char), c.isDigit = true) ∧
    nextTok ['4', '2'] 0 = (2, ⟨.INTEGER, .int 42⟩) :=
  ⟨⟨by decide, by decide⟩, C9_holds.2 ['4', '2'] (by decide) (by decide)⟩

/-- C10: an input line producing no token before end of input — the empty
string, a whitespace-only string, or one whose first non-whitespace
character is unrecognized — makes parse() fail with the Invalid Factor
error; no AST and no value is produced, so the whole evaluation fails the
same way. -/
theorem C10_holds (s : String) (h : yieldsNoToken s.toList = true) :
    parse s = .error .invalidFactor ∧ evaluate s = .error .invalidFactor := by
  have htok : (nextTok s.toList 0).2 = ⟨.EOF, .none⟩ :=
    getNextToken_noTok (s.toList.length + 1) s.toList 0 (by omega)
      (by simpa using h)
  have hparse : parse s = .error .invalidFactor := by
    have hfuel : 4 * s.toList.length + 10
        = 4 * s.toList.length + 7 + 1 + 1 + 1 := by omega
    simp only [parse, parseL]
    rw [hfuel, exprF_eofTok s.toList (4 * s.toList.length + 7)
      ⟨(nextTok s.toList 0).1, (nextTok s.toList 0).2⟩ (by rw [htok])]
    rfl
  refine ⟨hparse, ?_⟩
  unfold evaluate
  rw [hparse]
  rfl

/-- C10 witness: the rule applied to the input " #a", whose first
non-whitespace character is unrecognized. -/
theorem C10_witness :
    yieldsNoToken " #a".toList = true ∧
    (parse " #a" = .error .invalidFactor ∧
      evaluate " #a" = .error .invalidFactor) :=
  ⟨by decide, C10_holds " #a" (by decide)⟩
